import Mathlib

/-!
Shallow embedding of the document question-answering system
(`src/pdf_reader.py`, `src/qa_system.py`) and verification of its
specification claims.

Strings are modelled as Lean `String`s / `List Char`; the character
classes of Python's regular expressions (`\s`, `\w`) are modelled over
their ASCII parts, which is faithful on the ASCII inputs used below.
-/

namespace QA

/-- Python `\s` (ASCII part): space, tab, newline, carriage return,
vertical tab, form feed. -/
def pyIsSpace (c : Char) : Bool :=
  c = ' ' || c = '\t' || c = '\n' || c = '\r' || c = '\x0b' || c = '\x0c'

/-- Python `\w` (ASCII part): letters, digits and underscore. -/
def pyIsWord (c : Char) : Bool :=
  c.isAlphanum || c = '_'

/-- The allow-list of `re.sub(r"[^\w\s.,!?;:()\[\]{}\-\'\"]+", " ", text)` in
`preprocess_text`: word characters, whitespace, and the listed punctuation. -/
def isAllowed (c : Char) : Bool :=
  pyIsWord c || pyIsSpace c ||
  c = '.' || c = ',' || c = '!' || c = '?' || c = ';' || c = ':' ||
  c = '(' || c = ')' || c = '[' || c = ']' || c = '{' || c = '}' ||
  c = '-' || c = '\'' || c = '"'

/-- The punctuation class `[.,!?;:]` of the last substitution in
`preprocess_text`. -/
def isPunct (c : Char) : Bool :=
  c = '.' || c = ',' || c = '!' || c = '?' || c = ';' || c = ':'

/-- `re.sub(r"\s+", " ", text)`: each maximal run of whitespace becomes a
single space.  The flag records whether the previous character was part of a
whitespace run already emitted. -/
def collapseWSAux : Bool → List Char → List Char
  | _, [] => []
  | prevSpace, c :: cs =>
    if pyIsSpace c then
      if prevSpace then collapseWSAux true cs
      else ' ' :: collapseWSAux true cs
    else c :: collapseWSAux false cs

def collapseWS (l : List Char) : List Char :=
  collapseWSAux false l

/-- Scanner for `re.sub(r"\n\s*\n", "\n\n", text)`.  `none`: outside a
candidate match.  `some (tail, saw)`: a `'\n'` has been read; `tail` holds
(reversed) the whitespace read since the last `'\n'` of the current
whitespace run and `saw` records whether a second `'\n'` was seen.  The
greedy `\s*` makes a match extend to the last `'\n'` of the maximal
whitespace run, which is replaced by `"\n\n"`; the trailing non-newline
whitespace is emitted unchanged. -/
def sub2Aux : Option (List Char × Bool) → List Char → List Char
  | none, [] => []
  | none, c :: cs =>
    if c = '\n' then sub2Aux (some ([], false)) cs
    else c :: sub2Aux none cs
  | some (tail, saw), [] =>
    (if saw then ['\n', '\n'] else ['\n']) ++ tail.reverse
  | some (tail, saw), c :: cs =>
    if c = '\n' then sub2Aux (some ([], true)) cs
    else if pyIsSpace c then sub2Aux (some (c :: tail, saw)) cs
    else ((if saw then ['\n', '\n'] else ['\n']) ++ tail.reverse)
         ++ c :: sub2Aux none cs

def blankLineSub (l : List Char) : List Char :=
  sub2Aux none l

/-- `re.sub(r"[^\w\s.,!?;:()\[\]{}\-\'\"]+", " ", text)`: each maximal run of
disallowed characters becomes a single space. -/
def stripDisallowedAux : Bool → List Char → List Char
  | _, [] => []
  | prevBad, c :: cs =>
    if isAllowed c then c :: stripDisallowedAux false cs
    else
      if prevBad then stripDisallowedAux true cs
      else ' ' :: stripDisallowedAux true cs

def stripDisallowed (l : List Char) : List Char :=
  stripDisallowedAux false l

/-- `str.replace(a, b)` for single characters. -/
def replaceChar (a b : Char) (l : List Char) : List Char :=
  l.map (fun c => if c = a then b else c)

/-- `text.replace('"', '"').replace('"', '"')`: both replacements in the
source map the ASCII double quote to itself. -/
def quoteSub (l : List Char) : List Char :=
  replaceChar '"' '"' (replaceChar '"' '"' l)

/-- `re.sub(r"([.,!?;:](?:\"|\')?)", r"\1 ", text)`: after every punctuation
character, optionally followed by one quote character, insert a space;
scanning resumes after the match. -/
def punctSpace : List Char → List Char
  | [] => []
  | c :: cs =>
    if isPunct c then
      match cs with
      | [] => [c, ' ']
      | q :: rest =>
        if q = '"' || q = '\'' then c :: q :: ' ' :: punctSpace rest
        else c :: ' ' :: punctSpace (q :: rest)
    else c :: punctSpace cs

/-- Python `str.strip()` over the ASCII whitespace set. -/
def pyStrip (l : List Char) : List Char :=
  ((l.dropWhile pyIsSpace).reverse.dropWhile pyIsSpace).reverse

/-- `QASystem.preprocess_text`: the five regex/replace passes followed by a
final strip, in source order. -/
def preprocess_text (s : String) : String :=
  String.mk (pyStrip (punctSpace (quoteSub (stripDisallowed
    (blankLineSub (collapseWS s.toList))))))

/-- The metadata dictionary attached to documents and chunks in
`load_documents` / `initialize_qa_chain`: its four keys are always present
there. -/
structure DocMeta where
  source : String
  file_path : String
  created_at : String
  chunk_id : String
deriving DecidableEq, Repr

/-- `langchain` `Document`: page content plus metadata. -/
structure Document where
  page_content : String
  metadata : DocMeta
deriving DecidableEq, Repr

/-- A file found by `EXTRACTED_DIR.glob("*.txt")`: its full path
(`str(file_path)`) and its base name (`file_path.name`). -/
structure FileRef where
  path : String
  name : String
deriving DecidableEq, Repr

/-- `QASystem.load_documents`: for each text file, read its content,
preprocess it, and build a `Document` whose metadata records the file name,
path, load time and the fixed id `"{filename}_0"`.  Reading is the effectful
external step and is passed as `read`; an exception raised for any file
propagates out of the loop (the `except` clause logs and re-raises), so the
whole call fails with the first read error and no documents are returned. -/
def load_documents (read : FileRef → Except String String) (now : String)
    (files : List FileRef) : Except String (List Document) :=
  files.mapM fun fp =>
    (read fp).map fun text =>
      { page_content := preprocess_text text,
        metadata :=
          { source := fp.name, file_path := fp.path,
            created_at := now, chunk_id := fp.name ++ "_0" } }

/-- The chunk-assembly portion of `QASystem.initialize_qa_chain`
(lines 145-154).  In the source the two `for` loops are sequential, not
nested: the first loop leaves `doc_chunks` and `doc` bound to the values of
its last iteration, and only then does the second loop attach `chunk_id`s
and collect chunks.  Hence only the last document's chunks are produced
(and with an empty document list, `doc_chunks` is unbound and the method
raises `NameError`, modelled as `none`).  The text splitter is the external
`RecursiveCharacterTextSplitter`, passed as `split`. -/
def initialize_qa_chain_chunks (split : Document → List Document)
    (documents : List Document) : Option (List Document) :=
  match documents.getLast? with
  | none => none
  | some doc =>
    let doc_chunks := split doc
    some (doc_chunks.enum.map fun p =>
      { p.2 with
        metadata :=
          { doc.metadata with
            chunk_id := doc.metadata.source ++ "_" ++ toString p.1 } })

/-- Total number of chunks obtained by splitting every loaded document. -/
def totalChunkCount (split : Document → List Document)
    (documents : List Document) : Nat :=
  (documents.map fun d => (split d).length).sum

/-- The vector index built by `Chroma.from_documents(documents=chunks, ...)`
holds exactly the chunk list handed to it; its size is the chunk count. -/
def indexSize (chunks : List Document) : Nat :=
  chunks.length

/-- A message of `InMemoryHistory`: `HumanMessage` or `AIMessage` with its
content. -/
inductive Message where
  | human (content : String)
  | ai (content : String)
deriving DecidableEq, Repr

def Message.content : Message → String
  | .human s => s
  | .ai s => s

/-- The history-pairing loop of `process_query` (lines 203-207):
`for i in range(0, len(messages) - 1, 2)` with the (always-true) guard
`i + 1 < len(messages)`, collecting `(messages[i].content,
messages[i+1].content)`. -/
def pairHistory (messages : List Message) : List (String × String) :=
  (List.range messages.length).filterMap fun i =>
    if i % 2 = 0 ∧ i < messages.length - 1 then
      match messages.get? i, messages.get? (i + 1) with
      | some q, some a => some (q.content, a.content)
      | _, _ => none
    else none

/-- Metadata of a retrieved source document, seen through
`doc.metadata.get(key, default)`: each key may be absent. -/
structure RetMeta where
  source : Option String
  file_path : Option String
  created_at : Option String
  chunk_id : Option String
deriving DecidableEq, Repr

/-- A document returned by the retriever inside `result["source_documents"]`. -/
structure RetDoc where
  page_content : String
  metadata : RetMeta
deriving DecidableEq, Repr

/-- The attribution record built for each retrieved document in
`process_query` (lines 218-228), with the source's default values for
missing metadata (`created_at` defaults to the current time `now`). -/
structure SourceInfo where
  content : String
  source : String
  file_path : String
  created_at : String
  chunk_id : String
deriving DecidableEq, Repr

def source_info (now : String) (doc : RetDoc) : SourceInfo :=
  { content := doc.page_content,
    source := doc.metadata.source.getD "Sem nome",
    file_path := doc.metadata.file_path.getD "Caminho não disponível",
    created_at := doc.metadata.created_at.getD now,
    chunk_id := doc.metadata.chunk_id.getD "ID não disponível" }

/-- The deduplication loop of `process_query` (lines 216-231): append each
record only if it is not already present (`if source_info not in sources`). -/
def buildSources (now : String) (docs : List RetDoc) : List SourceInfo :=
  docs.foldl
    (fun sources doc =>
      let s := source_info now doc
      if s ∈ sources then sources else sources ++ [s])
    []

/-- Modelled from the spec: "deduplicated by full-record equality ...
order preserved as first-seen" — keep the first occurrence of every record,
in order. -/
def firstSeen {α : Type} [DecidableEq α] : List α → List α
  | [] => []
  | a :: l => a :: firstSeen (l.filter fun b => b ≠ a)
termination_by l => l.length
decreasing_by
  simpa using Nat.lt_succ_of_le (List.length_filter_le _ _)

/-- The dictionary returned by `process_query`. -/
structure QAResult where
  question : String
  answer : String
  sources : List SourceInfo
deriving DecidableEq, Repr

/-- `QASystem.process_query` over an already-initialized chain.  The
external `qa_chain.invoke` is the oracle `chain`, taking the question and
the paired chat history and returning the answer and the retrieved source
documents, or raising.  The human message is appended to the history first;
on a chain exception the error is re-raised with that message left in the
history.  On success the answer message is appended and the deduplicated
sources are returned. -/
def process_query
    (chain : String → List (String × String) → Except String (String × List RetDoc))
    (now : String) (query : String) (history : List Message) :
    List Message × Except String QAResult :=
  let h1 := history ++ [Message.human query]
  let chat_history := pairHistory h1
  match chain query chat_history with
  | .error e => (h1, .error e)
  | .ok (answer, source_documents) =>
    (h1 ++ [Message.ai answer],
     .ok { question := query, answer := answer,
           sources := buildSources now source_documents })

/-- A record of the feedback store `data/feedback.json`. -/
structure FeedbackRecord where
  timestamp : String
  question : String
  answer : String
  rating : Int
  comment : String
deriving DecidableEq, Repr

/-- `QASystem.process_feedback`: load the existing collection if the file
exists (else start from `[]`), append the new record, write the collection
back.  `file` is the prior content of `feedback.json` (`none` when absent);
the result is its new content. -/
def process_feedback (now : String) (file : Option (List FeedbackRecord))
    (question answer : String) (rating : Int) (comment : String) :
    Option (List FeedbackRecord) :=
  let feedback_data : FeedbackRecord :=
    { timestamp := now, question := question, answer := answer,
      rating := rating, comment := comment }
  let feedbacks := match file with
    | some l => l
    | none => []
  some (feedbacks ++ [feedback_data])

/-- One `{role, content}` entry of an exported history. -/
structure ExportEntry where
  role : String
  content : String
deriving DecidableEq, Repr

/-- The JSON object written by `export_chat_history`. -/
structure ExportData where
  timestamp : String
  conversations : List ExportEntry
deriving DecidableEq, Repr

def toExportEntry : Message → ExportEntry
  | .human s => { role := "human", content := s }
  | .ai s => { role := "ai", content := s }

/-- `QASystem.export_chat_history`: choose the file path (custom name or
timestamped), and if a message history object exists, write
`{timestamp, conversations}` to it and return the path; with no history
object, return `""` and write nothing.  The result is the returned string
together with the list of files written (path and content). -/
def export_chat_history (stamp nowIso : String) (exportsDir : String)
    (custom : Option String) (history : Option (List Message)) :
    String × List (String × ExportData) :=
  let filepath := match custom with
    | some name => exportsDir ++ "/" ++ name
    | none => exportsDir ++ "/chat_history_" ++ stamp ++ ".json"
  match history with
  | some messages =>
    (filepath,
     [(filepath,
       { timestamp := nowIso, conversations := messages.map toExportEntry })])
  | none => ("", [])

/-! Concrete fixtures used to evaluate the embedded operations. -/

/-- A loaded document `A.txt`, as produced by `load_documents`. -/
def docA : Document :=
  { page_content := "Hello world.",
    metadata := { source := "A.txt", file_path := "extracted_texts/A.txt",
                  created_at := "2026-01-01T00:00:00", chunk_id := "A.txt_0" } }

/-- A loaded document `B.txt`, as produced by `load_documents`. -/
def docB : Document :=
  { page_content := "Goodbye world.",
    metadata := { source := "B.txt", file_path := "extracted_texts/B.txt",
                  created_at := "2026-01-01T00:00:00", chunk_id := "B.txt_0" } }

/-- Modelled from the spec: the external `RecursiveCharacterTextSplitter`
(`split(document, ...)`) "must produce at least one chunk per non-empty
document, even if the document is shorter than `chunk_size`"; for the short
fixture documents (far below the default `chunk_size = 1000`) it returns the
document as its single chunk. -/
def splitWhole : Document → List Document := fun d => [d]

def fileA : FileRef := { path := "extracted_texts/A.txt", name := "A.txt" }

def fileB : FileRef := { path := "extracted_texts/B.txt", name := "B.txt" }

def fileC : FileRef := { path := "extracted_texts/C.txt", name := "C.txt" }

/-- A reader for which `B.txt` is unreadable and every other file reads
`"hello"`. -/
def readBFails : FileRef → Except String String := fun f =>
  if f.name = "B.txt" then .error "IOError: unreadable" else .ok "hello"

/-- A chain oracle that always answers `"resposta"` with no source
documents. -/
def chainOk : String → List (String × String) →
    Except String (String × List RetDoc) :=
  fun _ _ => .ok ("resposta", [])

/-- A chain oracle whose provider always fails. -/
def chainFail : String → List (String × String) →
    Except String (String × List RetDoc) :=
  fun _ _ => .error "GenerationError"

/-- A session history holding one complete turn. -/
def histOneTurn : List Message := [Message.human "q1", Message.ai "a1"]

/-! Helper lemmas. -/

theorem pairHistory_nil : pairHistory [] = [] := rfl

theorem pairHistory_single (m : Message) : pairHistory [m] = [] := by
  simp [pairHistory]

theorem pairHistory_cons_cons (q a : Message) (rest : List Message) :
    pairHistory (q :: a :: rest) = (q.content, a.content) :: pairHistory rest := by
  unfold pairHistory
  rw [show (q :: a :: rest).length = rest.length + 1 + 1 from rfl,
      List.range_succ_eq_map, List.range_succ_eq_map]
  simp only [List.filterMap_cons, List.filterMap_map, Function.comp_apply,
    List.get?_cons_succ, List.get?_cons_zero, Nat.add_sub_cancel,
    Nat.zero_mod, Nat.zero_lt_succ, and_self, if_pos, true_and]
  norm_num
  apply List.filterMap_congr
  intro i hi
  have hi' := List.mem_range.mp hi
  simp only [Function.comp_apply, Nat.succ_eq_add_one, List.getElem?_cons_succ]
  apply if_congr _ rfl rfl
  omega

theorem pairHistory_append_pair :
    ∀ st : List Message, st.length % 2 = 0 → ∀ m1 m2 : Message,
      pairHistory (st ++ [m1, m2]) =
        pairHistory st ++ [(m1.content, m2.content)]
  | [], _, m1, m2 => by
    rw [List.nil_append, pairHistory_cons_cons, pairHistory_nil]
    rfl
  | [m], h, m1, m2 => by simp at h
  | q0 :: a0 :: rest, h, m1, m2 => by
    have h' : rest.length % 2 = 0 := by
      simp only [List.length_cons] at h
      omega
    rw [List.cons_append, List.cons_append, pairHistory_cons_cons,
        pairHistory_cons_cons, pairHistory_append_pair rest h' m1 m2,
        List.cons_append]

theorem foldl_dedup_eq {α : Type} [DecidableEq α] (l : List α) :
    ∀ acc : List α,
      l.foldl (fun acc s => if s ∈ acc then acc else acc ++ [s]) acc =
        acc ++ firstSeen (l.filter fun b => b ∉ acc) := by
  induction l with
  | nil => intro acc; simp [firstSeen]
  | cons a t ih =>
    intro acc
    by_cases h : a ∈ acc
    · simp only [List.foldl_cons, if_pos h, List.filter_cons]
      rw [ih acc]
      have hd : (decide (a ∉ acc)) = false := by simp [h]
      rw [hd]
      simp
    · simp only [List.foldl_cons, if_neg h, List.filter_cons]
      rw [ih (acc ++ [a])]
      have hd : (decide (a ∉ acc)) = true := by simp [h]
      rw [hd]
      simp only [if_pos trivial, firstSeen, List.filter_filter]
      have hfil : ∀ b ∈ t, (decide (b ≠ a) && decide (b ∉ acc)) =
          decide (b ∉ acc ++ [a]) := by
        intro b _
        simp [List.mem_append, not_or, And.comm]
      rw [List.filter_congr hfil]
      simp

theorem firstSeen_mem_subset {α : Type} [DecidableEq α] :
    ∀ l : List α, ∀ x ∈ firstSeen l, x ∈ l := by
  intro l
  induction l using firstSeen.induct with
  | case1 => intro x hx; simp [firstSeen] at hx
  | case2 a t ih =>
    intro x hx
    rw [firstSeen] at hx
    rcases List.mem_cons.mp hx with h | h
    · simp [h]
    · exact List.mem_cons_of_mem _ (List.mem_of_mem_filter (ih x h))

theorem firstSeen_nodup {α : Type} [DecidableEq α] :
    ∀ l : List α, (firstSeen l).Nodup := by
  intro l
  induction l using firstSeen.induct with
  | case1 => simp [firstSeen]
  | case2 a t ih =>
    rw [firstSeen]
    refine List.nodup_cons.mpr ⟨?_, ih⟩
    intro hmem
    have h2 := List.of_mem_filter (firstSeen_mem_subset _ _ hmem)
    simp at h2

theorem buildSources_foldl (now : String) (docs : List RetDoc) :
    buildSources now docs =
      (docs.map (source_info now)).foldl
        (fun acc s => if s ∈ acc then acc else acc ++ [s]) [] := by
  rw [List.foldl_map]
  rfl

/-! Claim theorems. -/

/-- Claim C1 (code bug).  The two `for` loops of `initialize_qa_chain` are
sequential, not nested, so chunk ids are assigned only to the last
document's chunks: loading `A.txt` and `B.txt` yields a chunk list holding
only `B.txt`'s chunk, and no chunk of the list traces back to `A.txt` —
contradicting the claim that every loaded document's chunks receive
per-document `chunk_id`s. -/
theorem chunk_assembly_drops_first_document :
    initialize_qa_chain_chunks splitWhole [docA, docB] =
      some [{ page_content := "Goodbye world.",
              metadata := { source := "B.txt",
                            file_path := "extracted_texts/B.txt",
                            created_at := "2026-01-01T00:00:00",
                            chunk_id := "B.txt_0" } }] ∧
    "A.txt" ∉ (((initialize_qa_chain_chunks splitWhole [docA, docB]).getD []).map
      fun c => c.metadata.source) ∧
    "A.txt_0" ∉ (((initialize_qa_chain_chunks splitWhole [docA, docB]).getD []).map
      fun c => c.metadata.chunk_id) := by
  decide

/-- Claim C2 (code bug).  Because only the last document's chunks reach the
chunk list, the index built from it has 1 entry while splitting both loaded
documents yields 2 chunks, and no chunk of `A.txt` is present in the index —
contradicting the claimed size invariant. -/
theorem index_size_misses_first_document :
    indexSize ((initialize_qa_chain_chunks splitWhole [docA, docB]).getD []) = 1 ∧
    totalChunkCount splitWhole [docA, docB] = 2 ∧
    "A.txt" ∉ (((initialize_qa_chain_chunks splitWhole [docA, docB]).getD []).map
      fun c => c.metadata.source) := by
  decide

/-- Claim C3, counterexample.  `process_query` applied to the empty question
does not fail: with a chain that answers `"resposta"`, the call returns a
successful result and the session history is mutated (the empty question and
the answer are appended), contradicting the claimed `InvalidArgument`
rejection before any side effect. -/
theorem process_query_empty_question_accepted :
    process_query chainOk "t" "" [] =
      ([Message.human "", Message.ai "resposta"],
       .ok { question := "", answer := "resposta", sources := [] }) ∧
    (process_query chainOk "t" "" []).1 ≠ [] := by
  exact ⟨rfl, by decide⟩

/-- Claim C3, amended.  `process_query` performs no emptiness validation:
the empty question is appended to the session history and the chain is
invoked with it like any other question; on success the answer is appended
as well and the result is returned. -/
theorem process_query_accepts_empty_question
    (chain : String → List (String × String) →
      Except String (String × List RetDoc))
    (now : String) (st : List Message) (ans : String) (docs : List RetDoc)
    (h : chain "" (pairHistory (st ++ [Message.human ""])) = .ok (ans, docs)) :
    process_query chain now "" st =
      (st ++ [Message.human ""] ++ [Message.ai ans],
       .ok { question := "", answer := ans,
             sources := buildSources now docs }) := by
  simp only [process_query]
  rw [h]

/-- Witness for the amended claim C3, at the concrete chain `chainOk`. -/
theorem process_query_accepts_empty_question_witness :
    process_query chainOk "t" "" [] =
      ([] ++ [Message.human ""] ++ [Message.ai "resposta"],
       .ok { question := "", answer := "resposta",
             sources := buildSources "t" [] }) :=
  process_query_accepts_empty_question chainOk "t" [] "resposta" [] rfl

/-- Claim C4, counterexample.  `process_feedback` with `rating = 0` does not
fail and does not leave the store unchanged: the out-of-range record is
appended to the collection, contradicting the claimed `InvalidArgument`
rejection. -/
theorem process_feedback_rating_zero_appended :
    process_feedback "t0" (some []) "q" "a" 0 "c" =
      some [{ timestamp := "t0", question := "q", answer := "a",
              rating := 0, comment := "c" }] ∧
    process_feedback "t0" (some []) "q" "a" 0 "c" ≠ some [] := by
  exact ⟨rfl, by decide⟩

/-- Claim C4, amended.  `process_feedback` performs no rating validation:
for every rating (0, 6 and 3 alike) it succeeds and appends exactly one new
record matching the given question, answer, rating and comment to the prior
collection. -/
theorem process_feedback_appends_one_record (now : String)
    (file : Option (List FeedbackRecord)) (q a : String) (r : Int)
    (c : String) :
    process_feedback now file q a r c =
      some (file.getD [] ++
        [{ timestamp := now, question := q, answer := a,
           rating := r, comment := c }]) ∧
    (file.getD [] ++
      [{ timestamp := now, question := q, answer := a,
         rating := r, comment := c : FeedbackRecord }]).length =
      (file.getD []).length + 1 := by
  constructor
  · cases file <;> rfl
  · simp

/-- Claim C5 (code bug).  `preprocess_text` is not idempotent: it inserts a
space after sentence punctuation even when one already follows, so
`preprocess_text "a.b" = "a. b"` but a second application yields `"a.  b"`.
The spec requires `normalize(normalize(t)) == normalize(t)` for all `t`. -/
theorem preprocess_text_not_idempotent :
    preprocess_text "a.b" = "a. b" ∧
    preprocess_text (preprocess_text "a.b") = "a.  b" ∧
    preprocess_text (preprocess_text "a.b") ≠ preprocess_text "a.b" := by
  decide

/-- Claim C6 (confirmed).  The pairing loop of `process_query` produces
exactly `⌊n / 2⌋` turns from `n` messages, pairing message `2*i` with
message `2*i + 1`; a trailing unanswered question (odd `n`) is skipped
rather than causing an error (the function is total and the count still is
`⌊n / 2⌋`). -/
theorem pairHistory_turn_count_and_pairs :
    ∀ messages : List Message,
      (pairHistory messages).length = messages.length / 2 ∧
      ∀ i (q a : Message), messages.get? (2 * i) = some q →
        messages.get? (2 * i + 1) = some a →
        (pairHistory messages).get? i = some (q.content, a.content)
  | [] => by
    refine ⟨rfl, ?_⟩
    intro i q a h1 _
    simp at h1
  | [m] => by
    refine ⟨by rw [pairHistory_single]; simp, ?_⟩
    intro i q a _ h2
    rcases i with _ | i <;> simp at h2
  | q0 :: a0 :: rest => by
    obtain ⟨ihlen, ihget⟩ := pairHistory_turn_count_and_pairs rest
    refine ⟨?_, ?_⟩
    · rw [pairHistory_cons_cons]
      simp only [List.length_cons, ihlen]
      omega
    · intro i q a h1 h2
      rcases i with _ | i
      · simp only [Nat.mul_zero, List.get?_cons_zero] at h1
        simp only [Nat.mul_zero, Nat.zero_add, List.get?_cons_succ,
          List.get?_cons_zero] at h2
        rw [pairHistory_cons_cons]
        cases h1; cases h2; rfl
      · have e1 : 2 * (i + 1) = 2 * i + 1 + 1 := by omega
        rw [e1, List.get?_cons_succ, List.get?_cons_succ] at h1
        have e2 : 2 * (i + 1) + 1 = 2 * i + 1 + 1 + 1 := by omega
        rw [e2, List.get?_cons_succ, List.get?_cons_succ] at h2
        rw [pairHistory_cons_cons, List.get?_cons_succ]
        exact ihget i q a h1 h2

/-- Witness for claim C6: three messages give one turn, pairing the first
question with its answer and skipping the trailing question. -/
theorem pairHistory_turn_count_and_pairs_witness :
    (pairHistory [Message.human "q1", Message.ai "a1", Message.human "q2"]).length = 1 ∧
    (pairHistory [Message.human "q1", Message.ai "a1", Message.human "q2"]).get? 0 =
      some ("q1", "a1") := by
  have h := pairHistory_turn_count_and_pairs
    [Message.human "q1", Message.ai "a1", Message.human "q2"]
  exact ⟨h.1, h.2 0 (Message.human "q1") (Message.ai "a1") rfl rfl⟩

/-- Claim C7 (confirmed).  The sources list built by `process_query` equals
the first-occurrence deduplication of the attribution records of the
retrieved documents, in retrieval order, and contains no two equal records. -/
theorem sources_dedup_first_seen (now : String) (docs : List RetDoc) :
    buildSources now docs = firstSeen (docs.map (source_info now)) ∧
    (buildSources now docs).Nodup := by
  have heq : buildSources now docs = firstSeen (docs.map (source_info now)) := by
    rw [buildSources_foldl, foldl_dedup_eq]
    simp
  exact ⟨heq, heq ▸ firstSeen_nodup _⟩

/-- Claim C8, counterexample.  With `B.txt` unreadable and `A.txt`, `C.txt`
readable, `load_documents` fails with the read error instead of returning
the documents of the readable files: a single unreadable file is fatal to
the whole batch. -/
theorem load_documents_single_failure_fatal :
    load_documents readBFails "2026-01-01" [fileA, fileB, fileC] =
      .error "IOError: unreadable" ∧
    readBFails fileA = .ok "hello" ∧
    readBFails fileC = .ok "hello" := by
  exact ⟨rfl, rfl, rfl⟩

/-- Claim C8, amended.  In `load_documents` a read failure on a single file
is not skipped: the exception propagates (after logging) and the whole load
fails with that error, returning no documents at all. -/
theorem load_documents_error_propagation
    (read : FileRef → Except String String) (now : String)
    (pre : List FileRef) (f : FileRef) (post : List FileRef) (e : String)
    (hpre : ∀ g ∈ pre, ∃ t, read g = .ok t)
    (hf : read f = .error e) :
    load_documents read now (pre ++ f :: post) = .error e := by
  induction pre with
  | nil =>
    simp only [List.nil_append]
    unfold load_documents
    rw [List.mapM_cons, hf]
    rfl
  | cons g pre' ih =>
    obtain ⟨t, ht⟩ := hpre g (List.mem_cons_self g pre')
    have ih' := ih fun g' hg' => hpre g' (List.mem_cons_of_mem g hg')
    unfold load_documents at ih' ⊢
    rw [List.cons_append, List.mapM_cons, ht, ih']
    rfl

/-- Witness for the amended claim C8, at the concrete reader `readBFails`. -/
theorem load_documents_error_propagation_witness :
    load_documents readBFails "2026-01-01" ([fileA] ++ fileB :: [fileC]) =
      .error "IOError: unreadable" := by
  apply load_documents_error_propagation readBFails "2026-01-01" [fileA] fileB
    [fileC] "IOError: unreadable"
  · intro g hg
    rw [List.mem_singleton] at hg
    subst hg
    exact ⟨"hello", rfl⟩
  · rfl

/-- Claim C9 (confirmed).  Exporting the history of an empty session (a
history object with zero messages) writes, at the returned path, a JSON
object whose timestamp is the export time and whose conversations list is
empty. -/
theorem export_history_empty_session (stamp nowIso exportsDir : String)
    (custom : Option String) :
    (export_chat_history stamp nowIso exportsDir custom (some [])).2 =
      [((export_chat_history stamp nowIso exportsDir custom (some [])).1,
        { timestamp := nowIso, conversations := [] })] := by
  cases custom <;> rfl

/-- Claim C10 (confirmed).  If the chain invocation raises after the
question was accepted, the session history is left mutated: the question
message appended at the start of the call remains with no paired answer,
the message count becomes odd, and a later call's pairing pairs the failed
question with the next question. -/
theorem process_query_failure_leaves_question
    (chain : String → List (String × String) →
      Except String (String × List RetDoc))
    (now q : String) (st : List Message) (e : String)
    (heven : st.length % 2 = 0)
    (herr : chain q (pairHistory (st ++ [Message.human q])) = .error e) :
    process_query chain now q st = (st ++ [Message.human q], .error e) ∧
    (st ++ [Message.human q]).length % 2 = 1 ∧
    ∀ q2 : String,
      pairHistory ((st ++ [Message.human q]) ++ [Message.human q2]) =
        pairHistory st ++ [(q, q2)] := by
  refine ⟨?_, ?_, ?_⟩
  · simp only [process_query]
    rw [herr]
  · simp only [List.length_append, List.length_cons, List.length_nil]
    omega
  · intro q2
    rw [List.append_assoc]
    exact pairHistory_append_pair st heven (Message.human q) (Message.human q2)

/-- Witness for claim C10: a failing chain after one complete turn leaves
the unanswered question in the history, and the next call pairs it with the
new question. -/
theorem process_query_failure_leaves_question_witness :
    process_query chainFail "t" "q2" histOneTurn =
      (histOneTurn ++ [Message.human "q2"], .error "GenerationError") ∧
    pairHistory ((histOneTurn ++ [Message.human "q2"]) ++ [Message.human "q3"]) =
      pairHistory histOneTurn ++ [("q2", "q3")] := by
  have h := process_query_failure_leaves_question chainFail "t" "q2" histOneTurn
    "GenerationError" rfl rfl
  exact ⟨h.1, h.2.2 "q3"⟩

end QA
